import Mathlib

/-!
Shallow embedding of the modbus-time-calculator backend
(src/backend/modbus_utils.py, src/backend/modbus_handler.py,
src/backend/request_queue.py, src/backend/main.py) in Lean 4.

Bytes are modelled as `Nat` (values kept below 256 where Python's
`bytearray` would enforce it; every byte the code appends is masked with
`&&& 0xFF` exactly where the source masks it).  Python `Optional[int]`
becomes `Option Int`, `Optional[List[int]]` becomes `Option (List Nat)`.
Raised exceptions become `Except` errors.
-/

namespace Modbus

/-! ## CRC engine (src/backend/modbus_utils.py) -/

/-- One iteration of the inner `for j in range(8)` loop of
`generate_crc16_table`: the pair is `(crc, c)`. -/
def crcTableStep (p : Nat × Nat) : Nat × Nat :=
  let crc := p.1
  let c := p.2
  let crc' := if (crc ^^^ c) &&& 0x0001 = 1 then (crc >>> 1) ^^^ 0xA001 else crc >>> 1
  (crc', c >>> 1)

/-- Entry `i` of the 256-entry CRC-16/MODBUS table built by
`generate_crc16_table`: 8 iterations of `crcTableStep` starting from
`crc = 0`, `c = i`. -/
def tableEntry (i : Nat) : Nat :=
  (crcTableStep^[8] (0, i)).1

/-- `generate_crc16_table()`: `table[i] = tableEntry i` for `i < 256`. -/
def generate_crc16_table : List Nat :=
  (List.range 256).map tableEntry

/-- One byte of `calculate_crc`'s fold:
`crc = (crc >> 8) ^ table[(crc ^ byte) & 0xFF]`. -/
def crcByteStep (crc byte : Nat) : Nat :=
  (crc >>> 8) ^^^ tableEntry ((crc ^^^ byte) &&& 0xFF)

/-- `calculate_crc(data, table)` with the table inlined as `tableEntry`
(the list built by `generate_crc16_table` has `tableEntry i` at index `i`). -/
def calculate_crc (data : List Nat) : Nat :=
  data.foldl crcByteStep 0xFFFF

/-! ## Request model (src/backend/request_queue.py `ModbusRequest`),
restricted to the fields `_prepare_request` reads. -/

structure ModbusRequest where
  name : String := ""
  function : Nat := 0
  start_address : Nat := 0
  count : Nat := 1
  slave_id : Nat := 1
  data : Option (List Nat) := none
  order : Int := 0
  cycles : Option Int := none
deriving DecidableEq, Repr

/-! ## Frame builder (`ModbusHandler._prepare_request`) -/

/-- Python truthiness of `request.data`: `None` and `[]` are falsy.
`request.data[0] if request.data else 0`. -/
def dataHead : Option (List Nat) → Nat
  | some (v :: _) => v
  | _ => 0

/-- The bit-packing loop of function 15 (`write multiple coils`):
`values |= (1 << (i % 8))` for truthy values, a byte is flushed after
every 8th element and after the last element.  `len` is the length of
the whole data list, `i` the index of the head of `xs`. -/
def packCoilsGo (len : Nat) : List Nat → Nat → Nat → List Nat
  | [], _, _ => []
  | v :: rest, i, values =>
    let values' := if v ≠ 0 then values ||| (1 <<< (i % 8)) else values
    if (i + 1) % 8 = 0 ∨ i = len - 1 then
      values' :: packCoilsGo len rest (i + 1) 0
    else
      packCoilsGo len rest (i + 1) values'

/-- `request.data or []` followed by the packing loop. -/
def packCoils (data : Option (List Nat)) : List Nat :=
  let xs := data.getD []
  packCoilsGo xs.length xs 0 0

/-- The function-specific middle part of the frame (everything
`_prepare_request` appends between the 4-byte common header and the CRC). -/
def requestBody (r : ModbusRequest) : List Nat :=
  if r.function = 1 ∨ r.function = 2 ∨ r.function = 3 ∨ r.function = 4 then
    [(r.count >>> 8) &&& 0xFF, r.count &&& 0xFF]
  else if r.function = 5 ∨ r.function = 6 then
    let value := dataHead r.data
    [(value >>> 8) &&& 0xFF, value &&& 0xFF]
  else if r.function = 15 then
    [(r.count >>> 8) &&& 0xFF, r.count &&& 0xFF, (r.count + 7) / 8] ++ packCoils r.data
  else if r.function = 16 then
    [(r.count >>> 8) &&& 0xFF, r.count &&& 0xFF, r.count * 2] ++
      (r.data.getD []).flatMap (fun v => [(v >>> 8) &&& 0xFF, v &&& 0xFF])
  else
    []

/-- The frame before the CRC trailer:
`bytearray([slave_id, function])`, the 2-byte big-endian address, then
the function-specific body.  (`_prepare_request` has no error path: an
unrecognised function code simply contributes no body bytes.) -/
def frameBody (r : ModbusRequest) : List Nat :=
  [r.slave_id, r.function, (r.start_address >>> 8) &&& 0xFF, r.start_address &&& 0xFF] ++
    requestBody r

/-- `ModbusHandler._prepare_request`: frame body followed by the
little-endian CRC trailer `[crc & 0xFF, (crc >> 8) & 0xFF]`.  The method
ignores the transport kind: serial and TCP connections get the same bytes. -/
def prepare_request (r : ModbusRequest) : List Nat :=
  let data := frameBody r
  let crc := calculate_crc data
  data ++ [crc &&& 0xFF, (crc >>> 8) &&& 0xFF]

/-- The external RTU checksum check (from `calculate_crc`, the way a
receiver validates a frame): the last two bytes equal the little-endian
CRC-16 of everything before them.  `_parse_response` never performs this
check; it exists in the development so that claims about "the checksum
check" can be stated. -/
def crcCheck (frame : List Nat) : Bool :=
  frame.drop (frame.length - 2) ==
    [calculate_crc (frame.take (frame.length - 2)) &&& 0xFF,
     (calculate_crc (frame.take (frame.length - 2)) >>> 8) &&& 0xFF]

/-! ## Response parser (`ModbusHandler._parse_response`) -/

/-- The exceptions `_parse_response` can raise:
`Exception("Response too short")`, `Exception("Unsupported function code: …")`,
and the `IndexError` from `data[1]` on a 3-byte frame for a write function.
There is no checksum error: the method never inspects the CRC. -/
inductive ParseError where
  | responseTooShort
  | unsupportedFunction (f : Nat)
  | indexError
deriving DecidableEq, Repr

/-- `List[Union[int, bool]]`: registers/echoes are ints, coils are bools. -/
inductive ParsedValue where
  | pint (n : Nat)
  | pbool (b : Bool)
deriving DecidableEq, Repr

/-- Python `range(1, stop, 2)`: the odd numbers below `stop`, in order. -/
def rangeOdd (stop : Nat) : List Nat :=
  (List.range stop).filter (fun i => i % 2 = 1)

/-- `ModbusHandler._parse_response(response, function)`.
The length guard is `len(response) < 3`; `data = response[2:]`.
Functions 1/2 slice `data[1:byte_count+1]` (silently truncated by Python
slicing) and emit 8 booleans per present byte, LSB first.
Functions 3/4 iterate `range(1, byte_count, 2)` guarded by
`i + 1 < len(data)`.  Functions 5/6/15/16 read `data[0]`/`data[1]`
unguarded (`data[1]` raises `IndexError` on a 3-byte response). -/
def parse_response (response : List Nat) (function : Nat) :
    Except ParseError (List ParsedValue) :=
  if response.length < 3 then .error .responseTooShort
  else
    let data := response.drop 2
    if function = 1 ∨ function = 2 then
      let byte_count := data.headD 0
      let payload := (data.drop 1).take byte_count
      .ok (payload.flatMap (fun b =>
        (List.range 8).map (fun bit => .pbool (b &&& (1 <<< bit) != 0))))
    else if function = 3 ∨ function = 4 then
      let byte_count := data.headD 0
      .ok ((rangeOdd byte_count).filterMap (fun i =>
        if i + 1 < data.length then
          some (.pint ((data.getD i 0 <<< 8) ||| data.getD (i + 1) 0))
        else none))
    else if function = 5 ∨ function = 6 ∨ function = 15 ∨ function = 16 then
      match data with
      | d0 :: d1 :: _ => .ok [.pint ((d0 <<< 8) ||| d1)]
      | _ => .error .indexError
    else
      .error (.unsupportedFunction function)

/-! ## Request queue (src/backend/request_queue.py `RequestQueue`)

The queue is a Python list of references to `ModbusRequest` objects.
`add_request` mutates `request.stats.total` / `request.stats.remaining`
and then enqueues the same reference one or more times; the queue is
modelled as a `List` of requests carrying a `total` field that mirrors
the `stats.total` value `add_request` wrote. -/

structure QReq where
  name : String := ""
  order : Int := 0
  cycles : Option Int := none
  delay_after : Nat := 0
  /-- mirror of `request.stats.total` as last written by `add_request` -/
  total : Nat := 0
deriving DecidableEq, Repr

/-- Line 36: `request_cycles = request.cycles if request.cycles is not None
else cycles`. -/
def resolvedCycles (r : QReq) (cycles : Option Int) : Option Int :=
  match r.cycles with
  | some c => some c
  | none => cycles

/-- `RequestQueue.add_request(request, cycles)`: a resolved count `c > 0`
sets `stats.total = c` and extends the queue with `c` copies of the
request; otherwise `stats.total = 0` (the infinite marker) and one copy
is appended. -/
def add_request (queue : List QReq) (r : QReq) (cycles : Option Int := none) :
    List QReq :=
  match resolvedCycles r cycles with
  | some c =>
    if 0 < c then queue ++ List.replicate c.toNat { r with total := c.toNat }
    else queue ++ [{ r with total := 0 }]
  | none => queue ++ [{ r with total := 0 }]

/-- `RequestQueue.get_next_request()`: pop the head (FIFO), `None` when
empty. -/
def get_next_request (queue : List QReq) : Option QReq × List QReq :=
  match queue with
  | [] => (none, [])
  | r :: rest => (some r, rest)

/-- `k` successive `get_next_request` pops. -/
def popN (queue : List QReq) : Nat → List QReq
  | 0 => queue
  | k + 1 => popN (get_next_request queue).2 k

/-- `RequestQueue.get_remaining_count(name)`: the number of queued
instances bearing `name`. -/
def get_remaining_count (queue : List QReq) (name : String) : Nat :=
  (queue.filter (fun r => r.name == name)).length

/-- `ModbusHandler.start_polling(requests, interval, cycles)`: a fresh
queue populated by `add_request(request, cycles)` for each request in
the order the batch lists them (no sorting by `order`). -/
def start_polling_queue (requests : List QReq) (cycles : Option Int) : List QReq :=
  requests.foldl (fun q r => add_request q r cycles) []

/-! ## Polling worker (`ModbusHandler._polling_worker`)

The worker loops until `should_stop()`; each iteration pops the next
request, executes it via `send_request` (I/O abstracted by an oracle
`Nat → Bool` giving the outcome of the `t`-th transaction: `true` =
success, `false` = timeout or parse/protocol error), and re-enqueues the
request when `stats.total == 0`.  The model covers a run during which no
external `stop()` arrives (`should_stop()` constantly false); `fuel`
bounds the number of loop iterations observed.  Nothing in the loop
counts failures: the outcome does not influence the control flow. -/
def polling_worker (fuel : Nat) (queue : List QReq) (oracle : Nat → Bool)
    (t : Nat) : List (String × Bool) :=
  match fuel with
  | 0 => []
  | fuel + 1 =>
    match queue with
    | [] => []
    | req :: rest =>
      let outcome := oracle t
      let queue' := if req.total = 0 then add_request rest req else rest
      (req.name, outcome) :: polling_worker fuel queue' oracle (t + 1)

/-! ## Shared stats objects (src/backend/request_queue.py line 26 and
src/backend/main.py)

`ModbusRequest` declares `stats: RequestStats = RequestStats()`.  A
Python dataclass field default is evaluated once, when the class is
defined, so every `ModbusRequest` built without an explicit `stats`
argument receives a reference to the *same* `RequestStats` object.
`main.py` constructs every request (both `/request` and
`/start-polling`) without passing `stats`.  Object identity is modelled
with an explicit heap of `RequestStats` values addressed by `Nat`
references. -/

structure RequestStats where
  total : Int := 0
  completed : Int := 0
  timeouts : Int := 0
  errors : Int := 0
  remaining : Int := 0
deriving DecidableEq, Repr

/-- The one `RequestStats()` allocated when `class ModbusRequest` is
defined lives at heap address 0. -/
def defaultStatsRef : Nat := 0

structure ModbusRequestObj where
  name : String
  statsRef : Nat
deriving DecidableEq, Repr

structure Store where
  heap : List RequestStats
deriving DecidableEq, Repr

/-- The heap as it stands after `request_queue.py` is imported: exactly
the class-level default object, zero-initialised. -/
def initStore : Store := { heap := [{}] }

def readStats (s : Store) (ref : Nat) : RequestStats :=
  s.heap.getD ref {}

def writeStats (s : Store) (ref : Nat) (v : RequestStats) : Store :=
  { heap := s.heap.set ref v }

/-- `request.stats.completed += 1` through a reference. -/
def incCompleted (s : Store) (ref : Nat) : Store :=
  let st := readStats s ref
  writeStats s ref { st with completed := st.completed + 1 }

/-- `main.py` `/start-polling`: `ModbusRequest(name=…, …)` for each model
in the batch — the `stats` argument is never passed, so each object gets
the class-level default reference. -/
def buildSessionRequests (names : List String) : List ModbusRequestObj :=
  names.map (fun n => { name := n, statsRef := defaultStatsRef })

/-- Flip bit `b` of byte `i` of a frame. -/
def flipBit (frame : List Nat) (i b : Nat) : List Nat :=
  frame.set i (frame.getD i 0 ^^^ (1 <<< b))

/-! ## CRC-16 algebra

The table recurrence is GF(2)-linear, which is what makes the CRC detect
every single-bit error: flipping one bit of the input XORs a fixed
nonzero value into the checksum. -/

theorem shiftRight_xor (x y k : Nat) : (x ^^^ y) >>> k = x >>> k ^^^ y >>> k := by
  apply Nat.eq_of_testBit_eq
  intro i
  simp [Nat.testBit_shiftRight, Nat.testBit_xor]

theorem xor_left_comm (a b c : Nat) : a ^^^ (b ^^^ c) = b ^^^ (a ^^^ c) := by
  rw [← Nat.xor_assoc, Nat.xor_comm a b, Nat.xor_assoc]

theorem crcTableStep_add (a1 a2 b1 b2 : Nat) :
    crcTableStep (a1 ^^^ b1, a2 ^^^ b2) =
      ((crcTableStep (a1, a2)).1 ^^^ (crcTableStep (b1, b2)).1,
       (crcTableStep (a1, a2)).2 ^^^ (crcTableStep (b1, b2)).2) := by
  unfold crcTableStep
  simp only [Nat.and_one_is_mod]
  have hre : (a1 ^^^ b1) ^^^ (a2 ^^^ b2) = (a1 ^^^ a2) ^^^ (b1 ^^^ b2) := by
    simp [Nat.xor_assoc, Nat.xor_comm, xor_left_comm]
  have hmod : ((a1 ^^^ a2) ^^^ (b1 ^^^ b2)) % 2 =
      ((a1 ^^^ a2) % 2 + (b1 ^^^ b2) % 2) % 2 := by
    rw [Nat.xor_mod_two_eq, Nat.add_mod]
  rw [hre]
  rcases Nat.mod_two_eq_zero_or_one (a1 ^^^ a2) with h1 | h1 <;>
    rcases Nat.mod_two_eq_zero_or_one (b1 ^^^ b2) with h2 | h2 <;>
      simp only [h1, h2] at hmod <;>
      simp only [hmod, h1, h2] <;>
      norm_num <;>
      simp [shiftRight_xor, Nat.xor_assoc, Nat.xor_comm, xor_left_comm]

theorem crcTableStep_iterate_add (n : Nat) (a1 a2 b1 b2 : Nat) :
    crcTableStep^[n] (a1 ^^^ b1, a2 ^^^ b2) =
      ((crcTableStep^[n] (a1, a2)).1 ^^^ (crcTableStep^[n] (b1, b2)).1,
       (crcTableStep^[n] (a1, a2)).2 ^^^ (crcTableStep^[n] (b1, b2)).2) := by
  induction n generalizing a1 a2 b1 b2 with
  | zero => simp
  | succ n ih =>
    rw [Function.iterate_succ_apply, Function.iterate_succ_apply,
      Function.iterate_succ_apply, crcTableStep_add]
    rw [show crcTableStep (a1, a2) = ((crcTableStep (a1, a2)).1, (crcTableStep (a1, a2)).2) from rfl,
      show crcTableStep (b1, b2) = ((crcTableStep (b1, b2)).1, (crcTableStep (b1, b2)).2) from rfl] at *
    exact ih _ _ _ _

theorem tableEntry_add (p q : Nat) :
    tableEntry (p ^^^ q) = tableEntry p ^^^ tableEntry q := by
  unfold tableEntry
  have h := crcTableStep_iterate_add 8 0 p 0 q
  simpa using congrArg Prod.fst h

theorem crcByteStep_add (c d x y : Nat) :
    crcByteStep (c ^^^ d) (x ^^^ y) = crcByteStep c x ^^^ crcByteStep d y := by
  unfold crcByteStep
  have hre : (c ^^^ d) ^^^ (x ^^^ y) = (c ^^^ x) ^^^ (d ^^^ y) := by
    simp [Nat.xor_assoc, Nat.xor_comm, xor_left_comm]
  rw [shiftRight_xor, hre, Nat.and_xor_distrib_right, tableEntry_add]
  simp [Nat.xor_assoc, Nat.xor_comm, xor_left_comm]

theorem crcFold_add (xs : List Nat) :
    ∀ ys c d, xs.length = ys.length →
      (List.zipWith (· ^^^ ·) xs ys).foldl crcByteStep (c ^^^ d) =
        xs.foldl crcByteStep c ^^^ ys.foldl crcByteStep d := by
  induction xs with
  | nil => intro ys c d h; cases ys <;> simp_all
  | cons x xs ih =>
    intro ys c d h
    cases ys with
    | nil => simp at h
    | cons y ys =>
      simp only [List.zipWith_cons_cons, List.foldl_cons]
      rw [crcByteStep_add]
      exact ih ys _ _ (by simpa using h)

set_option maxRecDepth 100000 in
/-- Only table entry 0 fits in one byte: every other entry has a nonzero
high byte (the polynomial 0xA001 keeps bit 15 alive). -/
theorem tableEntry_high (j : Nat) (hj : j < 256) (h : tableEntry j < 256) : j = 0 := by
  revert j
  decide

set_option maxRecDepth 100000 in
theorem tableEntry_lt (j : Nat) (hj : j < 256) : tableEntry j < 65536 := by
  revert j
  decide

set_option maxRecDepth 100000 in
theorem tableEntry_pow_ne_zero (b : Nat) (hb : b < 8) : tableEntry (2 ^ b) ≠ 0 := by
  revert b
  decide

theorem tableEntry_zero : tableEntry 0 = 0 := by decide

theorem crcByteStep_lt (c x : Nat) (hc : c < 65536) : crcByteStep c x < 65536 := by
  unfold crcByteStep
  have h1 : c >>> 8 < 65536 := by
    have : c >>> 8 ≤ c := by
      rw [Nat.shiftRight_eq_div_pow]
      exact Nat.div_le_self _ _
    omega
  have h2 : (c ^^^ x) &&& 255 < 256 := by
    have : (c ^^^ x) &&& 255 ≤ 255 := Nat.and_le_right
    omega
  have h3 := tableEntry_lt _ h2
  have h4 : (2 : Nat) ^ 16 = 65536 := by norm_num
  have h5 := Nat.xor_lt_two_pow (n := 16) (x := c >>> 8)
    (y := tableEntry ((c ^^^ x) &&& 255)) (by rw [h4]; exact h1) (by rw [h4]; exact h3)
  rw [h4] at h5
  exact h5

theorem crcFold_lt (xs : List Nat) : ∀ c, c < 65536 → xs.foldl crcByteStep c < 65536 := by
  induction xs with
  | nil => intro c hc; simpa using hc
  | cons x xs ih => intro c hc; exact ih _ (crcByteStep_lt c x hc)

theorem calculate_crc_lt (data : List Nat) : calculate_crc data < 65536 :=
  crcFold_lt data 0xFFFF (by norm_num)

/-- The zero-input byte step maps no nonzero 16-bit state to zero
(the step is injective: the CRC never "forgets" an error). -/
theorem crcByteStep_zero_eq_zero (c : Nat) (hc : c < 65536)
    (h : crcByteStep c 0 = 0) : c = 0 := by
  unfold crcByteStep at h
  rw [Nat.xor_eq_zero] at h
  rw [Nat.xor_zero] at h
  have hlow : c &&& 255 < 256 := by
    have : c &&& 255 ≤ 255 := Nat.and_le_right
    omega
  have hsh : c >>> 8 < 256 := by
    rw [Nat.shiftRight_eq_div_pow]
    have : c / 2 ^ 8 < 256 := by
      apply Nat.div_lt_of_lt_mul
      norm_num
      omega
    exact this
  have hT : tableEntry (c &&& 255) < 256 := by rw [← h]; exact hsh
  have h0 : c &&& 255 = 0 := tableEntry_high _ hlow hT
  rw [h0, tableEntry_zero] at h
  have hmod : c % 256 = 0 := by
    have := Nat.and_pow_two_sub_one_eq_mod c 8
    norm_num at this
    omega
  have hdiv : c / 256 = 0 := by
    rw [Nat.shiftRight_eq_div_pow] at h
    norm_num at h
    exact h
  omega

theorem crcFold_zeros_ne_zero (m : Nat) :
    ∀ c, c < 65536 → c ≠ 0 → (List.replicate m 0).foldl crcByteStep c ≠ 0 := by
  induction m with
  | zero => intro c _ hne; simpa using hne
  | succ m ih =>
    intro c hc hne
    rw [List.replicate_succ, List.foldl_cons]
    apply ih _ (crcByteStep_lt c 0 hc)
    intro h0
    exact hne (crcByteStep_zero_eq_zero c hc h0)

theorem crcFold_zeros_zero (m : Nat) :
    (List.replicate m 0).foldl crcByteStep 0 = 0 := by
  induction m with
  | zero => rfl
  | succ m ih =>
    rw [List.replicate_succ, List.foldl_cons]
    have : crcByteStep 0 0 = 0 := by decide
    rw [this, ih]

/-- The CRC (from initial state 0) of a frame that is all zeros except a
single bit is never zero: single-bit errors are always detected. -/
theorem errvec_crc_ne_zero (i k b : Nat) (hb : b < 8) :
    (List.replicate i 0 ++ (1 <<< b) :: List.replicate k 0).foldl crcByteStep 0 ≠ 0 := by
  rw [List.foldl_append, crcFold_zeros_zero, List.foldl_cons]
  have he : (1 <<< b : Nat) < 256 := by
    rw [Nat.shiftLeft_eq, one_mul]
    calc (2 : Nat) ^ b ≤ 2 ^ 7 := Nat.pow_le_pow_right (by norm_num) (by omega)
    _ < 256 := by norm_num
  have hstep : crcByteStep 0 (1 <<< b) = tableEntry (2 ^ b) := by
    unfold crcByteStep
    rw [Nat.zero_xor]
    have he8 : (1 <<< b : Nat) < 2 ^ 8 := by norm_num; omega
    have hand : (1 <<< b) &&& 255 = 1 <<< b := by
      have := Nat.and_pow_two_sub_one_of_lt_two_pow he8
      norm_num at this
      exact this
    rw [hand, Nat.shiftLeft_eq, one_mul]
    simp
  rw [hstep]
  apply crcFold_zeros_ne_zero
  · exact tableEntry_lt _ (by
      calc (2 : Nat) ^ b ≤ 2 ^ 7 := Nat.pow_le_pow_right (by norm_num) (by omega)
      _ < 256 := by norm_num)
  · exact tableEntry_pow_ne_zero b hb

/-- XORing a list with all-zeros is the identity. -/
theorem zipWith_xor_zeros (l : List Nat) :
    List.zipWith (· ^^^ ·) l (List.replicate l.length 0) = l := by
  induction l with
  | nil => rfl
  | cons x xs ih => simp [List.replicate_succ, ih]

/-- Setting index `i` to `l[i] ^^^ e` is XORing with the error vector
that is `e` at position `i` and zero elsewhere. -/
theorem set_eq_zipWith_xor (l : List Nat) :
    ∀ i e, i < l.length →
      l.set i (l.getD i 0 ^^^ e) =
        List.zipWith (· ^^^ ·) l
          (List.replicate i 0 ++ e :: List.replicate (l.length - i - 1) 0) := by
  induction l with
  | nil => intro i e h; simp at h
  | cons x xs ih =>
    intro i e h
    cases i with
    | zero =>
      simp only [List.replicate, List.nil_append, List.zipWith_cons_cons,
        List.set_cons_zero, List.getD_cons_zero, List.length_cons]
      rw [show xs.length + 1 - 0 - 1 = xs.length from by omega, zipWith_xor_zeros]
    | succ i =>
      simp only [List.length_cons] at h
      simp only [List.replicate_succ, List.cons_append, List.zipWith_cons_cons,
        List.set_cons_succ, List.getD_cons_succ, List.length_cons, Nat.xor_zero]
      rw [show xs.length + 1 - (i + 1) - 1 = xs.length - i - 1 from by omega]
      rw [ih i e (by omega)]

/-- Flipping any single bit of any byte of the CRC'd region changes the
CRC. -/
theorem calculate_crc_flip (body : List Nat) (i b : Nat)
    (hi : i < body.length) (hb : b < 8) :
    calculate_crc (body.set i (body.getD i 0 ^^^ (1 <<< b))) ≠ calculate_crc body := by
  rw [set_eq_zipWith_xor body i (1 <<< b) hi]
  unfold calculate_crc
  have hlen : body.length =
      (List.replicate i 0 ++ (1 <<< b) :: List.replicate (body.length - i - 1) 0).length := by
    simp
    omega
  intro h
  rw [show (0xFFFF : Nat) = 0xFFFF ^^^ 0 from rfl] at h
  rw [crcFold_add body _ 0xFFFF 0 hlen] at h
  rw [show ((0xFFFF : Nat) ^^^ 0) = 0xFFFF from Nat.xor_zero _] at h
  have hd := Nat.xor_right_inj.mp (h.trans (Nat.xor_zero _).symm)
  exact errvec_crc_ne_zero i (body.length - i - 1) b hb hd

/-- Two 16-bit values with the same low byte and the same high byte are
equal: the little-endian trailer determines the CRC. -/
theorem crc_bytes_inj (u v : Nat) (hu : u < 65536) (hv : v < 65536)
    (h1 : u &&& 255 = v &&& 255) (h2 : (u >>> 8) &&& 255 = (v >>> 8) &&& 255) : u = v := by
  have e : ∀ w : Nat, w &&& 255 = w % 256 := by
    intro w
    have := Nat.and_pow_two_sub_one_eq_mod w 8
    norm_num at this
    exact this
  rw [e, e] at h1
  rw [e, e] at h2
  simp only [Nat.shiftRight_eq_div_pow] at h2
  norm_num at h2
  have d1 : u / 256 % 256 = u / 256 := Nat.mod_eq_of_lt (by omega)
  have d2 : v / 256 % 256 = v / 256 := Nat.mod_eq_of_lt (by omega)
  rw [d1, d2] at h2
  omega

/-! ## Frame-level consequences -/

theorem prepare_request_eq (r : ModbusRequest) :
    prepare_request r = frameBody r ++
      [calculate_crc (frameBody r) &&& 0xFF,
       (calculate_crc (frameBody r) >>> 8) &&& 0xFF] := rfl

/-- Evaluating the checksum check on a frame split as body ++ 2-byte
trailer. -/
theorem crcCheck_of_append (body trailer : List Nat) (h : trailer.length = 2) :
    crcCheck (body ++ trailer) =
      (trailer == [calculate_crc body &&& 0xFF, (calculate_crc body >>> 8) &&& 0xFF]) := by
  unfold crcCheck
  have hlen : (body ++ trailer).length - 2 = body.length := by simp [h]
  rw [hlen, List.take_left, List.drop_left]

/-- Every frame `_prepare_request` builds passes the external RTU
checksum check: the builder really does append the CRC of the body. -/
theorem crcCheck_prepare (r : ModbusRequest) : crcCheck (prepare_request r) = true := by
  rw [prepare_request_eq, crcCheck_of_append _ _ (by simp)]
  simp

theorem length_prepare (r : ModbusRequest) :
    (prepare_request r).length = (frameBody r).length + 2 := by
  rw [prepare_request_eq]
  simp

theorem getD_append_left (l t : List Nat) (i : Nat) (h : i < l.length) :
    (l ++ t).getD i 0 = l.getD i 0 := by
  unfold List.getD
  rw [List.get?_eq_getElem?, List.get?_eq_getElem?, List.getElem?_append_left h]

theorem getD_append_right (l t : List Nat) (i : Nat) (h : l.length ≤ i) :
    (l ++ t).getD i 0 = t.getD (i - l.length) 0 := by
  unfold List.getD
  rw [List.get?_eq_getElem?, List.get?_eq_getElem?, List.getElem?_append_right h]

/-- Flipping any single bit of any byte of a built frame makes the
checksum check fail. -/
theorem crcCheck_flipBit_prepare (r : ModbusRequest) (i b : Nat)
    (hi : i < (prepare_request r).length) (hb : b < 8) :
    crcCheck (flipBit (prepare_request r) i b) = false := by
  have hcrc := calculate_crc_lt (frameBody r)
  set body := frameBody r with hbody
  set crc := calculate_crc body with hcrcdef
  have hpe : prepare_request r = body ++ [crc &&& 0xFF, (crc >>> 8) &&& 0xFF] :=
    prepare_request_eq r
  rw [length_prepare, ← hbody] at hi
  unfold flipBit
  rw [hpe]
  by_cases hcase : i < body.length
  · -- a body byte is flipped: the recomputed CRC changes
    rw [getD_append_left _ _ _ hcase, List.set_append_left _ _ hcase,
      crcCheck_of_append _ _ (by simp)]
    have hne := calculate_crc_flip body i b hcase hb
    have hlt := calculate_crc_lt (body.set i (body.getD i 0 ^^^ 1 <<< b))
    rw [beq_eq_false_iff_ne]
    intro hcontra
    apply hne
    injection hcontra with ha hrest
    injection hrest with hb2 _
    exact crc_bytes_inj _ _ hlt hcrc ha.symm hb2.symm
  · -- a trailer byte is flipped: the stored CRC no longer matches
    have hge : body.length ≤ i := by omega
    rw [getD_append_right _ _ _ hge, List.set_append_right _ _ hge,
      crcCheck_of_append _ _ (by simp)]
    have hpow : (1 <<< b : Nat) ≠ 0 := by
      rw [Nat.shiftLeft_eq, one_mul]
      exact Nat.pos_iff_ne_zero.mp (Nat.pos_pow_of_pos b (by norm_num))
    rw [beq_eq_false_iff_ne]
    have hij : i - body.length = 0 ∨ i - body.length = 1 := by omega
    rcases hij with hij | hij <;> rw [hij] <;> intro hcontra
    · simp only [List.getD_cons_zero, List.set_cons_zero] at hcontra
      injection hcontra with ha _
      exact hpow (Nat.xor_right_inj.mp
        (ha.trans (Nat.xor_zero (crc &&& 0xFF)).symm :
          (crc &&& 0xFF) ^^^ 1 <<< b = (crc &&& 0xFF) ^^^ 0))
    · simp only [List.getD_cons_succ, List.getD_cons_zero, List.set_cons_succ,
        List.set_cons_zero] at hcontra
      injection hcontra with _ hrest
      injection hrest with hb2 _
      exact hpow (Nat.xor_right_inj.mp
        (hb2.trans (Nat.xor_zero ((crc >>> 8) &&& 0xFF)).symm :
          ((crc >>> 8) &&& 0xFF) ^^^ 1 <<< b = ((crc >>> 8) &&& 0xFF) ^^^ 0))

/-! ## Queue and worker lemmas -/

/-- `k` pops through `get_next_request` are `List.drop k`. -/
theorem popN_eq_drop (k : Nat) : ∀ q : List QReq, popN q k = q.drop k := by
  induction k with
  | zero => intro q; rfl
  | succ k ih =>
    intro q
    cases q with
    | nil =>
      show popN (get_next_request []).2 k = _
      rw [show (get_next_request []).2 = [] from rfl, ih]
      simp
    | cons r rest =>
      show popN (get_next_request (r :: rest)).2 k = _
      rw [show (get_next_request (r :: rest)).2 = rest from rfl, ih]
      rfl

theorem remaining_replicate (n : Nat) (r : QReq) :
    get_remaining_count (List.replicate n r) r.name = n := by
  unfold get_remaining_count
  rw [List.filter_replicate]
  simp

/-- A batch in which every request resolves to exactly one cycle
populates the queue in batch order, one instance per request, with
`stats.total = 1` stamped on each. -/
theorem start_polling_queue_single (cycles : Option Int) :
    ∀ (rs : List QReq) (q : List QReq),
      (∀ r ∈ rs, resolvedCycles r cycles = some 1) →
      rs.foldl (fun q r => add_request q r cycles) q =
        q ++ rs.map (fun r => { r with total := 1 }) := by
  intro rs
  induction rs with
  | nil => intro q _; simp
  | cons r rs ih =>
    intro q h
    have hr : resolvedCycles r cycles = some 1 := h r (by simp)
    simp only [List.foldl_cons]
    rw [show add_request q r cycles = q ++ [{ r with total := 1 }] from by
      unfold add_request
      rw [hr]
      norm_num]
    rw [ih _ (fun x hx => h x (by simp [hx]))]
    simp

/-- The executed transaction log of a queue of finite instances
(`total ≠ 0`, so nothing is re-enqueued) is the queue front to back,
whatever the outcomes are. -/
theorem polling_worker_finite (q : List QReq) :
    ∀ (oracle : Nat → Bool) (t : Nat), (∀ r ∈ q, r.total ≠ 0) →
      (polling_worker q.length q oracle t).map Prod.fst = q.map QReq.name := by
  induction q with
  | nil => intro oracle t _; rfl
  | cons r rest ih =>
    intro oracle t h
    have hr : r.total ≠ 0 := h r (by simp)
    show ((r.name, oracle t) ::
        polling_worker rest.length (if r.total = 0 then add_request rest r else rest) oracle (t + 1)).map
          Prod.fst = _
    rw [if_neg hr]
    simp only [List.map_cons]
    rw [ih oracle (t + 1) (fun x hx => h x (by simp [hx]))]

/-- With a single infinite instance queued, the worker executes one
transaction per loop iteration forever, regardless of how many
consecutive failures the oracle produces. -/
theorem polling_worker_infinite_run (r : QReq) (hr : r.total = 0) (hc : r.cycles = none) :
    ∀ (fuel : Nat) (oracle : Nat → Bool) (t : Nat),
      (polling_worker fuel [r] oracle t).length = fuel := by
  have hre : add_request [] r = [r] := by
    cases r with
    | mk n o cy d tt =>
      change cy = none at hc
      change tt = 0 at hr
      subst hc
      subst hr
      rfl
  intro fuel
  induction fuel with
  | zero => intro oracle t; rfl
  | succ fuel ih =>
    intro oracle t
    show ((r.name, oracle t) ::
        polling_worker fuel (if r.total = 0 then add_request [] r else []) oracle (t + 1)).length = _
    rw [if_pos hr, hre]
    simp only [List.length_cons]
    rw [ih oracle (t + 1)]

/-! ## Parser lemmas -/

/-- Functions 1/2 contribute exactly 8 booleans per payload byte. -/
theorem flatMap_bits_length (l : List Nat) :
    (l.flatMap (fun b =>
      (List.range 8).map (fun bit => ParsedValue.pbool (b &&& (1 <<< bit) != 0)))).length =
      8 * l.length := by
  induction l with
  | nil => rfl
  | cons x xs ih =>
    rw [List.flatMap_cons, List.length_append, ih]
    simp
    ring

/-- Length of the guarded register extraction of functions 3/4:
`min` of the advertised register count and the register count that fits
in the data actually present. -/
theorem rangeOdd_filterMap_length (L : Nat) (g : Nat → ParsedValue) :
    ∀ n, ((rangeOdd n).filterMap
        (fun i => if i + 1 < L then some (g i) else none)).length =
      min (n / 2) ((L - 1) / 2) := by
  intro n
  induction n with
  | zero => simp [rangeOdd]
  | succ n ih =>
    have hsplit : rangeOdd (n + 1) =
        rangeOdd n ++ (if n % 2 = 1 then [n] else []) := by
      unfold rangeOdd
      rw [List.range_succ, List.filter_append]
      by_cases h : n % 2 = 1 <;> simp [h]
    rw [hsplit, List.filterMap_append, List.length_append, ih]
    by_cases h1 : n % 2 = 1 <;> by_cases h2 : n + 1 < L <;>
      simp [h1, h2] <;> omega

/-! ## Claims -/

/-- C1, counterexample: `_parse_response` does not verify the trailing CRC.
The response `01 03 02 00 0A` followed by the bogus trailer `00 00` fails
the RTU checksum check, yet parses successfully to register 10 — no
`ChecksumError` exists anywhere in the parser. -/
theorem C1_counterexample :
    crcCheck [1, 3, 2, 0, 10, 0, 0] = false ∧
    parse_response [1, 3, 2, 0, 10, 0, 0] 3 = .ok [.pint 10] :=
  ⟨rfl, rfl⟩

/-- C1, amended: `_parse_response` performs no CRC verification and has no
checksum failure mode (a frame with a mismatched trailer can parse
successfully), while `_prepare_request` does append a correct little-endian
CRC-16 trailer: the external checksum check passes on every built frame, and
flipping any single bit of a built frame makes that check fail. -/
theorem C1_crc_roundtrip (r : ModbusRequest) (i b : Nat)
    (hi : i < (prepare_request r).length) (hb : b < 8) :
    crcCheck (prepare_request r) = true ∧
    crcCheck (flipBit (prepare_request r) i b) = false ∧
    (∃ frame vs, crcCheck frame = false ∧ parse_response frame 1 = .ok vs) :=
  ⟨crcCheck_prepare r, crcCheck_flipBit_prepare r i b hi hb,
   ⟨[1, 1, 1, 5, 0, 0],
    [.pbool true, .pbool false, .pbool true, .pbool false,
     .pbool false, .pbool false, .pbool false, .pbool false],
    rfl, rfl⟩⟩

/-- C1, witness: the round-trip/flip theorem applied to the concrete read
request `slave 1, function 3, address 0x10, count 4`, bit 0 of byte 0. -/
theorem C1_witness :
    0 < (prepare_request { function := 3, start_address := 0x10, count := 4, slave_id := 1 }).length ∧
    0 < 8 ∧
    (crcCheck (prepare_request { function := 3, start_address := 0x10, count := 4, slave_id := 1 }) = true ∧
      crcCheck (flipBit (prepare_request { function := 3, start_address := 0x10, count := 4, slave_id := 1 }) 0 0) = false ∧
      (∃ frame vs, crcCheck frame = false ∧ parse_response frame 1 = .ok vs)) :=
  ⟨by decide, by decide,
   C1_crc_roundtrip { function := 3, start_address := 0x10, count := 4, slave_id := 1 }
     0 0 (by decide) (by decide)⟩

/-- C2, counterexample: `_prepare_request` takes no transport kind and always
produces the RTU framing.  For slave 1, function 3, address 0x10, count 4 the
frame is the 8-byte RTU frame `01 03 00 10 00 04 45 CC` — it carries a valid
CRC trailer, is not 12 bytes (6-byte MBAP header + 6-byte PDU), and its byte
3 is the address byte 0x10, not the zero protocol-id byte the claim requires
for TCP. -/
theorem C2_counterexample :
    prepare_request { function := 3, start_address := 0x10, count := 4, slave_id := 1 } =
      [0x01, 0x03, 0x00, 0x10, 0x00, 0x04, 0x45, 0xCC] ∧
    crcCheck [0x01, 0x03, 0x00, 0x10, 0x00, 0x04, 0x45, 0xCC] = true ∧
    ([0x01, 0x03, 0x00, 0x10, 0x00, 0x04, 0x45, 0xCC] : List Nat).length = 8 ∧
    ([0x01, 0x03, 0x00, 0x10, 0x00, 0x04, 0x45, 0xCC] : List Nat).getD 3 0 ≠ 0 :=
  ⟨rfl, rfl, rfl, by decide⟩

/-- C2, amended: `_prepare_request` applies RTU framing to every request
regardless of the transport kind — the frame always starts with
`[slave_id, function]` (no MBAP header is ever prepended) and always ends
with the little-endian CRC-16 trailer (TCP requests get the CRC too). -/
theorem C2_rtu_always (r : ModbusRequest) :
    crcCheck (prepare_request r) = true ∧
    (prepare_request r).take 2 = [r.slave_id, r.function] ∧
    (prepare_request r).length = (frameBody r).length + 2 := by
  refine ⟨crcCheck_prepare r, ?_, length_prepare r⟩
  rw [prepare_request_eq]
  unfold frameBody
  rfl

/-- C2, witness: the always-RTU theorem applied to the function-3 request of
the counterexample. -/
theorem C2_witness :
    crcCheck (prepare_request { function := 3, start_address := 0x10, count := 4, slave_id := 1 }) = true ∧
    (prepare_request { function := 3, start_address := 0x10, count := 4, slave_id := 1 }).take 2 = [1, 3] ∧
    (prepare_request { function := 3, start_address := 0x10, count := 4, slave_id := 1 }).length =
      (frameBody { function := 3, start_address := 0x10, count := 4, slave_id := 1 }).length + 2 :=
  C2_rtu_always { function := 3, start_address := 0x10, count := 4, slave_id := 1 }

/-- C3, counterexample: with one infinite request queued, four consecutive
timeout outcomes produce four executed transactions — a 4th transaction runs
after 3 consecutive failures with no intervening success, so no circuit
breaker stops the session. -/
theorem C3_counterexample :
    polling_worker 4 [{ name := "inf", total := 0 }] (fun _ => false) 0 =
      [("inf", false), ("inf", false), ("inf", false), ("inf", false)] := by
  decide

/-- C3, amended: `_polling_worker` counts no failures: with an infinite
request queued (`stats.total = 0`) it executes one transaction per loop
iteration for as long as it runs, whatever the outcomes — the session stops
only via the external stop signal or an exhausted queue, never because of
consecutive failures. -/
theorem C3_no_circuit_breaker (r : QReq) (hr : r.total = 0) (hc : r.cycles = none)
    (fuel : Nat) (oracle : Nat → Bool) (t : Nat) :
    (polling_worker fuel [r] oracle t).length = fuel :=
  polling_worker_infinite_run r hr hc fuel oracle t

/-- C3, witness: the no-circuit-breaker theorem applied to an all-failures
oracle for 4 iterations. -/
theorem C3_witness :
    ({ name := "x" : QReq }.total = 0) ∧ ({ name := "x" : QReq }.cycles = none) ∧
    (polling_worker 4 [{ name := "x" }] (fun _ => false) 0).length = 4 :=
  ⟨rfl, rfl, C3_no_circuit_breaker { name := "x" } rfl rfl 4 (fun _ => false) 0⟩

/-- C4, counterexample: for function 5 with truthy data value 1, the on-wire
2-byte value is `00 01`, not the `FF 00` the claim requires. -/
theorem C4_counterexample :
    prepare_request { function := 5, start_address := 0, count := 1, slave_id := 1, data := some [1] } =
      [1, 5, 0, 0, 0x00, 0x01, 12, 10] ∧
    ((0x00, 0x01) : Nat × Nat) ≠ (0xFF, 0x00) :=
  ⟨rfl, by decide⟩

/-- C4, amended: for function 5 `_prepare_request` writes the supplied value
verbatim (big-endian, per-byte masked): the value field is
`data[0]` when `data` is truthy and 0 otherwise — there is no
truthy-to-0xFF00 normalisation. -/
theorem C4_value_verbatim (r : ModbusRequest) (h : r.function = 5) :
    prepare_request r =
      [r.slave_id, r.function, (r.start_address >>> 8) &&& 0xFF, r.start_address &&& 0xFF,
       (dataHead r.data >>> 8) &&& 0xFF, dataHead r.data &&& 0xFF] ++
      [calculate_crc (frameBody r) &&& 0xFF, (calculate_crc (frameBody r) >>> 8) &&& 0xFF] ∧
    dataHead (some [1]) = 1 ∧ dataHead none = 0 ∧ dataHead (some []) = 0 := by
  refine ⟨?_, rfl, rfl, rfl⟩
  rw [prepare_request_eq]
  unfold frameBody requestBody
  rw [h]
  norm_num

/-- C4, witness: the verbatim-value theorem applied to a concrete function-5
request with data `[1]`. -/
theorem C4_witness :
    ({ function := 5, data := some [1] : ModbusRequest }.function = 5) ∧
    dataHead (some [1]) = 1 :=
  ⟨rfl, (C4_value_verbatim { function := 5, data := some [1] } rfl).2.1⟩

/-- Evaluating `add_request` when the resolved cycle count is `some c`. -/
theorem add_request_some_eq (queue : List QReq) (r : QReq) (cycles : Option Int)
    (c : Int) (hres : resolvedCycles r cycles = some c) :
    add_request queue r cycles =
      if 0 < c then queue ++ List.replicate c.toNat { r with total := c.toNat }
      else queue ++ [{ r with total := 0 }] := by
  unfold add_request
  rw [hres]

/-- Evaluating `add_request` when the resolved cycle count is absent. -/
theorem add_request_none_eq (queue : List QReq) (r : QReq) (cycles : Option Int)
    (hres : resolvedCycles r cycles = none) :
    add_request queue r cycles = queue ++ [{ r with total := 0 }] := by
  unfold add_request
  rw [hres]

/-- C5: queue accounting.  A resolved cycle count `c > 0` enqueues exactly
`c` instances stamped `stats.total = c`, `get_remaining_count` returns `c`
right after the enqueue and `c - k` after `k` pops (0 after exactly `c`
pops); a zero/absent resolved count enqueues exactly one instance stamped
`stats.total = 0`. -/
theorem C5_queue_accounting (r : QReq) (cycles : Option Int) :
    (∀ c : Int, resolvedCycles r cycles = some c → 0 < c →
      add_request [] r cycles = List.replicate c.toNat { r with total := c.toNat } ∧
      get_remaining_count (add_request [] r cycles) r.name = c.toNat ∧
      (∀ k : Nat, get_remaining_count (popN (add_request [] r cycles) k) r.name =
        c.toNat - k) ∧
      get_remaining_count (popN (add_request [] r cycles) c.toNat) r.name = 0) ∧
    ((∀ c : Int, resolvedCycles r cycles = some c → c ≤ 0) →
      add_request [] r cycles = [{ r with total := 0 }]) := by
  constructor
  · intro c hres hc
    have hadd : add_request [] r cycles =
        List.replicate c.toNat { r with total := c.toNat } := by
      rw [add_request_some_eq [] r cycles c hres, if_pos hc]
      simp
    have hdrop : ∀ k : Nat,
        get_remaining_count (popN (add_request [] r cycles) k) r.name = c.toNat - k := by
      intro k
      rw [hadd, popN_eq_drop, List.drop_replicate]
      exact remaining_replicate _ _
    refine ⟨hadd, ?_, hdrop, ?_⟩
    · rw [hadd]
      exact remaining_replicate _ _
    · rw [hdrop c.toNat]
      omega
  · intro hle
    cases hres : resolvedCycles r cycles with
    | none =>
      rw [add_request_none_eq [] r cycles hres]
      simp
    | some c =>
      have hc0 := hle c hres
      rw [add_request_some_eq [] r cycles c hres, if_neg (by omega)]
      simp

/-- C5, witness: accounting applied to a request with `cycles = 3` (3
instances, 0 remaining after 3 pops) and to a request with no cycle count
(one infinite instance with `total = 0`). -/
theorem C5_witness :
    resolvedCycles { name := "a", cycles := some 3 } none = some 3 ∧ ((0 : Int) < 3) ∧
    get_remaining_count (add_request [] { name := "a", cycles := some 3 } none) "a" =
      (3 : Int).toNat ∧
    get_remaining_count (popN (add_request [] { name := "a", cycles := some 3 } none)
      (3 : Int).toNat) "a" = 0 ∧
    add_request [] { name := "b" } none = [{ name := "b", total := 0 }] :=
  ⟨rfl, by decide,
   ((C5_queue_accounting { name := "a", cycles := some 3 } none).1 3 rfl (by decide)).2.1,
   ((C5_queue_accounting { name := "a", cycles := some 3 } none).1 3 rfl (by decide)).2.2.2,
   (C5_queue_accounting { name := "b" } none).2 (fun c h => nomatch h)⟩

/-- C6, counterexample: a batch with order keys `[2, 0, 1]` executes in
batch-list order — names A, B, C with order keys 2, 0, 1 — not in ascending
order-key sequence: `start_polling` never sorts by the `order` field. -/
theorem C6_counterexample :
    (polling_worker 3 (start_polling_queue
        [{ name := "A", order := 2 }, { name := "B", order := 0 },
         { name := "C", order := 1 }] (some 1)) (fun _ => true) 0).map Prod.fst =
      ["A", "B", "C"] ∧
    (start_polling_queue [{ name := "A", order := 2 }, { name := "B", order := 0 },
        { name := "C", order := 1 }] (some 1)).map QReq.order = [2, 0, 1] ∧
    ([2, 0, 1] : List Int) ≠ [0, 1, 2] := by
  decide

/-- C6, amended: within a cycle the requests execute in the order the batch
lists them (FIFO population, FIFO draw); the `order` key plays no role. -/
theorem C6_batch_order (rs : List QReq)
    (h : ∀ r ∈ rs, resolvedCycles r (some 1) = some 1) (oracle : Nat → Bool) :
    start_polling_queue rs (some 1) = rs.map (fun r => { r with total := 1 }) ∧
    (polling_worker rs.length (start_polling_queue rs (some 1)) oracle 0).map Prod.fst =
      rs.map QReq.name := by
  have hq := start_polling_queue_single (some 1) rs [] h
  have hq' : start_polling_queue rs (some 1) = rs.map (fun r => { r with total := 1 }) := by
    unfold start_polling_queue
    simpa using hq
  refine ⟨hq', ?_⟩
  rw [hq']
  have hlen : rs.length = (rs.map (fun r => { r with total := 1 })).length := by simp
  rw [hlen, polling_worker_finite _ oracle 0 ?side]
  case side =>
    intro x hx
    simp only [List.mem_map] at hx
    obtain ⟨a, _, rfl⟩ := hx
    simp
  rw [List.map_map]
  rfl

/-- C6, witness: the batch-order theorem applied to the 3-request batch with
order keys 2, 0, 1. -/
theorem C6_witness :
    (∀ r ∈ [{ name := "A", order := 2 : QReq }, { name := "B", order := 0 },
        { name := "C", order := 1 }], resolvedCycles r (some 1) = some 1) ∧
    (polling_worker 3 (start_polling_queue [{ name := "A", order := 2 : QReq },
        { name := "B", order := 0 }, { name := "C", order := 1 }] (some 1))
      (fun _ => true) 0).map Prod.fst = ["A", "B", "C"] :=
  ⟨by decide,
   (C6_batch_order [{ name := "A", order := 2 }, { name := "B", order := 0 },
     { name := "C", order := 1 }] (by decide) (fun _ => true)).2⟩

/-- C7: the dataclass field default `stats: RequestStats = RequestStats()`
is evaluated once, so every request `main.py` constructs — in the same
session or in different sessions — holds a reference to the same
`RequestStats` object (heap address 0): before any transaction its
`completed` is 0, and incrementing `completed` through request "a"'s
reference makes request "b" observe 1.  The spec requires fresh, unshared
stats per session; the code shares one object globally. -/
theorem C7_shared_stats_default :
    ((buildSessionRequests ["a", "b"]).getD 0 ⟨"", 99⟩).statsRef =
      ((buildSessionRequests ["a", "b"]).getD 1 ⟨"", 99⟩).statsRef ∧
    ((buildSessionRequests ["c"]).getD 0 ⟨"", 99⟩).statsRef =
      ((buildSessionRequests ["a", "b"]).getD 0 ⟨"", 99⟩).statsRef ∧
    (readStats initStore ((buildSessionRequests ["a", "b"]).getD 1 ⟨"", 99⟩).statsRef).completed
      = 0 ∧
    (readStats (incCompleted initStore
        ((buildSessionRequests ["a", "b"]).getD 0 ⟨"", 99⟩).statsRef)
      ((buildSessionRequests ["a", "b"]).getD 1 ⟨"", 99⟩).statsRef).completed = 1 :=
  ⟨rfl, rfl, rfl, rfl⟩

/-- C8, counterexample: a 4-byte response (fewer than the claimed 5-byte
minimum) is not rejected: for function 3 it parses successfully to an empty
register list. -/
theorem C8_counterexample :
    ([1, 3, 0, 0] : List Nat).length < 5 ∧
    parse_response [1, 3, 0, 0] 3 = .ok [] :=
  ⟨by decide, rfl⟩

/-- C8, amended: `_parse_response` raises its frame-too-short error exactly
when the input has fewer than 3 bytes — 3- and 4-byte inputs pass the length
guard. -/
theorem C8_length_guard (resp : List Nat) (f : Nat) :
    parse_response resp f = .error .responseTooShort ↔ resp.length < 3 := by
  constructor
  · intro h
    by_contra hlen
    unfold parse_response at h
    rw [if_neg hlen] at h
    by_cases h12 : f = 1 ∨ f = 2
    · rw [if_pos h12] at h
      simp at h
    · rw [if_neg h12] at h
      by_cases h34 : f = 3 ∨ f = 4
      · rw [if_pos h34] at h
        simp at h
      · rw [if_neg h34] at h
        by_cases hw : f = 5 ∨ f = 6 ∨ f = 15 ∨ f = 16
        · rw [if_pos hw] at h
          cases hd : resp.drop 2 with
          | nil => rw [hd] at h; simp at h
          | cons d0 rest =>
            cases rest with
            | nil => rw [hd] at h; simp at h
            | cons d1 rest2 => rw [hd] at h; simp at h
        · rw [if_neg hw] at h
          simp at h
  · intro h
    unfold parse_response
    rw [if_pos h]

/-- C8, witness: the length-guard characterisation applied to a 1-byte and a
4-byte input. -/
theorem C8_witness :
    (parse_response [1] 3 = .error .responseTooShort ↔ ([1] : List Nat).length < 3) ∧
    (parse_response [1, 3, 0, 0] 3 = .error .responseTooShort ↔ ([1, 3, 0, 0] : List Nat).length < 3) :=
  ⟨C8_length_guard [1] 3, C8_length_guard [1, 3, 0, 0] 3⟩

/-- C9, counterexample: `_prepare_request` does not reject the unsupported
function code 7 — it produces a 6-byte frame (header plus CRC, no data
field) instead of failing. -/
theorem C9_counterexample :
    prepare_request { function := 7, start_address := 0, count := 1, slave_id := 1 } =
      [1, 7, 0, 0, 176, 25] := rfl

/-- C9, amended: `_prepare_request` performs no function-code validation:
any code outside {1,2,3,4,5,6,15,16} still yields a frame (the 4-byte
header followed by the CRC trailer, 6 bytes in all); only
`_parse_response` rejects such codes, with its unsupported-function
error. -/
theorem C9_no_validation (r : ModbusRequest)
    (h : r.function ∉ ([1, 2, 3, 4, 5, 6, 15, 16] : List Nat)) :
    prepare_request r =
      [r.slave_id, r.function, (r.start_address >>> 8) &&& 0xFF,
       r.start_address &&& 0xFF] ++
      [calculate_crc (frameBody r) &&& 0xFF, (calculate_crc (frameBody r) >>> 8) &&& 0xFF] ∧
    (prepare_request r).length = 6 ∧
    (∀ resp : List Nat, 3 ≤ resp.length →
      parse_response resp r.function = .error (.unsupportedFunction r.function)) := by
  simp only [List.mem_cons, List.not_mem_nil, or_false] at h
  push_neg at h
  obtain ⟨h1, h2, h3, h4, h5, h6, h15, h16⟩ := h
  have hbody : requestBody r = [] := by
    unfold requestBody
    rw [if_neg (by tauto), if_neg (by tauto), if_neg h15, if_neg h16]
  have hframe : frameBody r =
      [r.slave_id, r.function, (r.start_address >>> 8) &&& 0xFF,
       r.start_address &&& 0xFF] := by
    unfold frameBody
    rw [hbody, List.append_nil]
  refine ⟨?_, ?_, ?_⟩
  · rw [prepare_request_eq, hframe]
  · rw [length_prepare, hframe]
    rfl
  · intro resp hl
    unfold parse_response
    rw [if_neg (by omega), if_neg (by tauto), if_neg (by tauto), if_neg (by tauto)]

/-- C9, witness: the no-validation theorem applied to function code 7 and a
3-byte response. -/
theorem C9_witness :
    ({ function := 7, start_address := 0, count := 1, slave_id := 1 : ModbusRequest }.function ∉ ([1, 2, 3, 4, 5, 6, 15, 16] : List Nat)) ∧
    (prepare_request { function := 7, start_address := 0, count := 1, slave_id := 1 }).length = 6 ∧
    parse_response [1, 7, 9] 7 = .error (.unsupportedFunction 7) :=
  ⟨by decide,
   (C9_no_validation { function := 7, start_address := 0, count := 1, slave_id := 1 }
     (by decide)).2.1,
   (C9_no_validation { function := 7, start_address := 0, count := 1, slave_id := 1 }
     (by decide)).2.2 [1, 7, 9] (by decide)⟩

/-- C10: for functions 1–4 the parser is total on every input of at least 3
bytes, whatever byte count the third byte advertises.  For functions 1/2 the
result has exactly 8 booleans per advertised byte when those bytes are
present, truncated to the bytes that actually fit
(`8 * min advertised present`); for functions 3/4 it is the advertised
register count truncated to the registers that fit. -/
theorem C10_parse_total (resp : List Nat) (f : Nat)
    (hf : f = 1 ∨ f = 2 ∨ f = 3 ∨ f = 4) (hl : 3 ≤ resp.length) :
    ∃ vs, parse_response resp f = .ok vs ∧
      ((f = 1 ∨ f = 2) →
        vs.length = 8 * min ((resp.drop 2).headD 0) (resp.length - 3)) ∧
      ((f = 3 ∨ f = 4) →
        vs.length = min ((resp.drop 2).headD 0 / 2) ((resp.length - 3) / 2)) := by
  unfold parse_response
  rw [if_neg (by omega)]
  by_cases h12 : f = 1 ∨ f = 2
  · rw [if_pos h12]
    refine ⟨_, rfl, fun _ => ?_, fun h34 => by rcases h12 with h | h <;> omega⟩
    rw [flatMap_bits_length]
    have hlen : (((resp.drop 2).drop 1).take ((resp.drop 2).headD 0)).length =
        min ((resp.drop 2).headD 0) (resp.length - 3) := by
      rw [List.length_take, List.length_drop, List.length_drop]
      omega
    rw [hlen]
  · rw [if_neg h12]
    have h34 : f = 3 ∨ f = 4 := by tauto
    rw [if_pos h34]
    refine ⟨_, rfl, fun h12' => absurd h12' h12, fun _ => ?_⟩
    rw [rangeOdd_filterMap_length ((resp.drop 2).length)
      (fun i => .pint (((resp.drop 2).getD i 0 <<< 8) ||| (resp.drop 2).getD (i + 1) 0))]
    rw [List.length_drop]
    omega

/-- C10, witness: totality applied to the 6-byte function-3 response
`01 03 05 00 01 00`, whose advertised byte count 5 exceeds the 3 data
bytes present: one register fits. -/
theorem C10_witness :
    ((3 : Nat) = 1 ∨ (3 : Nat) = 2 ∨ (3 : Nat) = 3 ∨ (3 : Nat) = 4) ∧
    3 ≤ ([1, 3, 5, 0, 1, 0] : List Nat).length ∧
    ∃ vs, parse_response [1, 3, 5, 0, 1, 0] 3 = .ok vs ∧
      (((3 : Nat) = 1 ∨ (3 : Nat) = 2) →
        vs.length = 8 * min ((([1, 3, 5, 0, 1, 0] : List Nat).drop 2).headD 0)
          (([1, 3, 5, 0, 1, 0] : List Nat).length - 3)) ∧
      (((3 : Nat) = 3 ∨ (3 : Nat) = 4) →
        vs.length = min ((([1, 3, 5, 0, 1, 0] : List Nat).drop 2).headD 0 / 2)
          ((([1, 3, 5, 0, 1, 0] : List Nat).length - 3) / 2)) :=
  ⟨by decide, by decide, C10_parse_total [1, 3, 5, 0, 1, 0] 3 (by decide) (by decide)⟩


end Modbus
